import Mathlib

/-!
Shallow embedding of the Bulk Import core of the PigWebApp repository.

Conventions of the embedding:
* `Uuid` values (`uuid::Uuid`, drawn by `Uuid::new_v4()`) are modelled as
  naturals; freshly drawn ids are supplied through an explicit counter or
  parameter, since the claims never depend on the textual form of a UUID.
* Timestamps (`chrono::NaiveDateTime`) are modelled as naturals supplied by
  the caller (`Utc::now()` becomes an explicit parameter).
* The Postgres tables `pigs` and `bulk_imports` are modelled as ordered lists
  of rows; a diesel `insert_into` appends, a diesel `update ... filter(id)`
  replaces the rows with the matching id.
* The full-text duplicate query (`PigQuery::to_db_select`, whose relevance
  ranking is owned by Postgres) and the fallibility of every SQL statement
  are modelled by oracle functions carried in an environment record, so all
  theorems quantify over every possible Record Store behaviour.
* Query-string parameters carrying UUID lists arrive here already parsed
  (`Option (List Uuid)` instead of `Option (List String)`); the string-level
  `parse_uuids` round trip is outside the claims.
-/

namespace PigWeb

/-- `uuid::Uuid`, modelled as a natural number. -/
abbrev Uuid := Nat

/-- `chrono::NaiveDateTime`, modelled as a natural number. -/
abbrev Time := Nat

deriving instance DecidableEq for Except

/-- `pigweb_common::users::Roles` (src/common/src/users.rs). -/
inductive Roles where
  | PigViewer
  | PigEditor
  | BulkEditor
  | BulkAdmin
  | UserViewer
  | UserAdmin
  | LogViewer
deriving Repr, DecidableEq

/-- HTTP statuses produced by the bulk endpoints (`rocket::http::Status`). -/
inductive HStatus where
  | ok
  | created
  | badRequest
  | unauthorized
  | forbidden
  | notFound
  | internalServerError
deriving Repr, DecidableEq

/-- The numeric HTTP code of each status, as sent on the wire. -/
def HStatus.code : HStatus → Nat
  | .ok => 200
  | .created => 201
  | .badRequest => 400
  | .unauthorized => 401
  | .forbidden => 403
  | .notFound => 404
  | .internalServerError => 500

/-- `pigweb_common::pigs::Pig` (src/common/src/pigs.rs). -/
structure Pig where
  id : Uuid
  name : String
  created : Time
  creator : Uuid
deriving Repr, DecidableEq

/-- `Pig::new`: a fresh pig from a name and creator; the randomly drawn id and
the creation instant are explicit arguments here. -/
def Pig.new (name : String) (creator : Uuid) (id : Uuid) (now : Time) : Pig :=
  { id := id, name := name, created := now, creator := creator }

/-- `pigweb_common::bulk::BulkImport` (src/common/src/bulk.rs). -/
structure BulkImport where
  id : Uuid
  name : String
  creator : Uuid
  started : Time
  finished : Option Time
  pending : List String
  accepted : List Uuid
  rejected : List String
deriving Repr, DecidableEq

/-- `pigweb_common::bulk::PatchAction` (src/common/src/bulk.rs). -/
inductive PatchAction (T : Type) where
  | ADD : T → PatchAction T
  | REMOVE : T → PatchAction T
  | UPDATE : T → T → PatchAction T
deriving Repr, DecidableEq

/-- `pigweb_common::bulk::BulkPatch` (src/common/src/bulk.rs). -/
structure BulkPatch where
  id : Uuid
  pending : Option (List (PatchAction String))
  accepted : Option (List (PatchAction Uuid))
  rejected : Option (List (PatchAction String))
deriving Repr, DecidableEq

/-- One iteration of the loop body of `BulkPatch::perform_actions`:
`ADD` pushes, `REMOVE` looks up the first position of the value and removes
it, `UPDATE` looks up the first position of `old` and overwrites it. -/
def performAction {T : Type} [DecidableEq T] (vec : List T) : PatchAction T → List T
  | .ADD e => vec ++ [e]
  | .REMOVE e =>
    match vec.findIdx? (fun r => decide (r = e)) with
    | some i => vec.eraseIdx i
    | none => vec
  | .UPDATE old new =>
    match vec.findIdx? (fun r => decide (r = old)) with
    | some i => vec.set i new
    | none => vec

/-- `BulkPatch::perform_actions`: applies each action to the vector, in array
order. -/
def perform_actions {T : Type} [DecidableEq T] (actions : List (PatchAction T)) (vec : List T) :
    List T :=
  actions.foldl performAction vec

/-- `BulkPatch::update_import`: applies the pending action list, then the
accepted one, then the rejected one, each to its own bucket; an absent list
leaves its bucket alone. -/
def BulkPatch.update_import (p : BulkPatch) (imp : BulkImport) : BulkImport :=
  let imp1 :=
    match p.pending with
    | some acts => { imp with pending := perform_actions acts imp.pending }
    | none => imp
  let imp2 :=
    match p.accepted with
    | some acts => { imp1 with accepted := perform_actions acts imp1.accepted }
    | none => imp1
  match p.rejected with
  | some acts => { imp2 with rejected := perform_actions acts imp2.rejected }
  | none => imp2

/-! ## Import Creation Pipeline (`api_bulk_create`, src/server/src/bulkapi.rs) -/

/-- The per-character cleanup applied by `api_bulk_create` to each input name:
typographic double quotes become `"`, typographic single quotes become the
ASCII apostrophe (code point 39), dash variants become `-`, every other
character passes through. -/
def cleanupChar (c : Char) : Char :=
  if c = '“' ∨ c = '”' then '"'
  else if c = '‘' ∨ c = '’' then Char.ofNat 39
  else if c = '‒' ∨ c = '–' ∨ c = '—' ∨ c = '⸺' ∨ c = '⸻' then '-'
  else c

/-- `str::trim` on the character list: drop whitespace from both ends.
(Rust trims the Unicode White_Space set; the claims only involve ASCII
whitespace, covered by `Char.isWhitespace`.) -/
def trimChars (s : List Char) : List Char :=
  ((s.dropWhile Char.isWhitespace).reverse.dropWhile Char.isWhitespace).reverse

/-- The normalization of one raw input: `input.trim()` followed by the
character cleanup (lines 50-58 of bulkapi.rs). -/
def cleanupName (input : String) : String :=
  String.mk ((trimChars input.toList).map cleanupChar)

/-- ASCII lowercasing of a single character, as used by
`str::eq_ignore_ascii_case`. -/
def asciiLowerChar (c : Char) : Char :=
  if 65 ≤ c.toNat ∧ c.toNat ≤ 90 then Char.ofNat (c.toNat + 32) else c

/-- `str::eq_ignore_ascii_case`: equality after ASCII lowercasing. -/
def eq_ignore_ascii_case (a b : String) : Bool :=
  a.toList.map asciiLowerChar == b.toList.map asciiLowerChar

/-- Environment of oracles for the creation pipeline. `detect` is the result
of running `PigQuery::default().with_name(name).with_limit(10).to_db_select()`
against the current `pigs` table (an `Except` error is a failed SQL load);
`createOk` tells whether a given `diesel::insert_into(pigs)` succeeds.
Keeping both abstract quantifies the theorems over every Record Store
behaviour, since the ranking of the full-text search is owned by Postgres. -/
structure CreateEnv where
  detect : List Pig → String → Except Unit (List Pig)
  createOk : List Pig → Pig → Bool
  startedAt : Time
  finishedAt : Time
  creator : Uuid
  importId : Uuid

/-- The loop state of `api_bulk_create`: the `pigs` table (mutated by
successful inserts), the fresh-uuid counter, and the accumulators. -/
structure CreateState where
  store : List Pig
  nextId : Uuid
  importName : Option String
  pending : List String
  accepted : List Uuid
  rejected : List String
deriving Repr, DecidableEq

/-- Lines 60-63 of bulkapi.rs: set the import name if it is not set already. -/
def set_import_name (st : CreateState) (name : String) : CreateState :=
  if st.importName.isNone then { st with importName := some name } else st

/-- One iteration of the `for input in inputs` loop of `api_bulk_create`
(lines 48-102 of bulkapi.rs). Note the source consults `duplicates.get(1)` —
the second search result — when deciding whether the name is an exact
duplicate. -/
def createStep (env : CreateEnv) (st : CreateState) (input : String) : CreateState :=
  let name := cleanupName input
  let st := set_import_name st name
  if name ∈ st.pending then st
  else
    match env.detect st.store name with
    | .ok duplicates =>
      if duplicates.length > 0 then
        if (match duplicates[1]? with
            | some pig => eq_ignore_ascii_case pig.name name
            | none => false) then
          { st with rejected := st.rejected ++ [name] }
        else
          { st with pending := st.pending ++ [name] }
      else
        let pig := Pig.new name env.creator st.nextId env.startedAt
        if env.createOk st.store pig then
          { st with store := st.store ++ [pig], nextId := st.nextId + 1,
                    accepted := st.accepted ++ [pig.id] }
        else
          { st with nextId := st.nextId + 1, pending := st.pending ++ [name] }
    | .error _ => { st with pending := st.pending ++ [name] }

/-- The whole classification loop, folded over the input batch. -/
def processBatch (env : CreateEnv) (inputs : List String) (st : CreateState) : CreateState :=
  inputs.foldl (createStep env) st

/-- The loop state at entry of `api_bulk_create`: existing `pigs` table,
fresh-id counter, and empty accumulators. -/
def initialState (store : List Pig) (nextId : Uuid) : CreateState :=
  { store := store, nextId := nextId, importName := none,
    pending := [], accepted := [], rejected := [] }

/-- `api_bulk_create` up to (but not including) the final insert of the
`BulkImport` row: classifies every input, then sets `finished` exactly when
no pending name remains, and assembles the response record. Returns the
record together with the resulting `pigs` table. -/
def api_bulk_create (env : CreateEnv) (inputs : List String) (store : List Pig)
    (nextId : Uuid) : BulkImport × List Pig :=
  let st := processBatch env inputs (initialState store nextId)
  let finished : Option Time :=
    if st.pending.length = 0 then some env.finishedAt else none
  ({ id := env.importId
     name := st.importName.getD ""
     creator := env.creator
     started := env.startedAt
     finished := finished
     pending := st.pending
     accepted := st.accepted
     rejected := st.rejected }, st.store)

/-- The full endpoint: the role gate, the classification, and the final
insert into `bulk_imports` (a failed insert surfaces a 500 and persists
nothing). -/
def api_bulk_create_endpoint (isBulkEditor : Bool) (env : CreateEnv) (saveOk : Bool)
    (inputs : List String) (store : List Pig) (nextId : Uuid) :
    Except HStatus (BulkImport × List Pig) :=
  if !isBulkEditor then .error .forbidden
  else
    let res := api_bulk_create env inputs store nextId
    if saveOk then .ok res else .error .internalServerError

/-! ## Import Record Store queries and the Patch Engine endpoint -/

/-- `pigweb_common::DEFAULT_API_RESPONSE_LIMIT`. -/
def DEFAULT_API_RESPONSE_LIMIT : Nat := 100

/-- `pigweb_common::bulk::BulkQuery` (src/common/src/bulk.rs), with the
UUID-list parameters already parsed. -/
structure BulkQuery where
  id : Option (List Uuid)
  creator : Option (List Uuid)
  limit : Option Nat
  offset : Option Nat
deriving Repr, DecidableEq

/-- `BulkQuery::to_db_select`, interpreted against the `bulk_imports` table:
filter by the id list and the creator list when given (`eq_any` is list
membership), then apply `OFFSET` (only set when positive) and `LIMIT`
(defaulting to `DEFAULT_API_RESPONSE_LIMIT`). In SQL the offset skips rows
before the limit counts them. -/
def BulkQuery.to_db_select (q : BulkQuery) (table : List BulkImport) : List BulkImport :=
  let res := table
  let res :=
    match q.id with
    | some ids => res.filter (fun (imp : BulkImport) => decide (imp.id ∈ ids))
    | none => res
  let res :=
    match q.creator with
    | some cs => res.filter (fun (imp : BulkImport) => decide (imp.creator ∈ cs))
    | none => res
  let off := q.offset.getD 0
  let res := if off > 0 then res.drop off else res
  res.take (q.limit.getD DEFAULT_API_RESPONSE_LIMIT)

/-- The write-back of `api_bulk_patch` (lines 162-169 of bulkapi.rs): apply
the patch body, then set `finished` to the current time when no pending name
remains — and only then; a non-empty pending list leaves `finished` as it
was. -/
def patchedImport (now : Time) (actions : BulkPatch) (imp : BulkImport) : BulkImport :=
  let imp := actions.update_import imp
  if imp.pending.length = 0 then { imp with finished := some now } else imp

/-- `api_bulk_patch` (src/server/src/bulkapi.rs): the role gate, the
limit-1 lookup by the addressed id (any match count other than one yields a
500), the patch application with the `finished` recomputation, and the
diesel update that replaces the row with the matching id (a failed write
yields a 500 and leaves the table untouched). Returns the HTTP status and
the resulting `bulk_imports` table. -/
def api_bulk_patch (isBulkEditor : Bool) (now : Time) (saveOk : Bool)
    (table : List BulkImport) (actions : BulkPatch) : HStatus × List BulkImport :=
  if !isBulkEditor then (.forbidden, table)
  else
    let query : BulkQuery :=
      { id := some [actions.id], creator := none, limit := some 1, offset := some 0 }
    let imports := query.to_db_select table
    match imports with
    | [impRow] =>
      let imp := patchedImport now actions impRow
      if saveOk then
        (.ok, table.map (fun r => if r.id = imp.id then imp else r))
      else
        (.internalServerError, table)
    | _ => (.internalServerError, table)

/-- `api_bulk_fetch` (src/server/src/bulkapi.rs): forbidden without the
BulkEditor or BulkAdmin role; a non-admin caller has the creator filter of
the query overwritten with their own id before the select runs; a failed
SQL load yields a 500. -/
def api_bulk_fetch (isBulkAdmin isBulkEditor : Bool) (selfId : Uuid) (loadOk : Bool)
    (table : List BulkImport) (query : BulkQuery) : Except HStatus (List BulkImport) :=
  if !(isBulkAdmin || isBulkEditor) then .error .forbidden
  else
    let query := if !isBulkAdmin then { query with creator := some [selfId] } else query
    if loadOk then .ok (query.to_db_select table) else .error .internalServerError

/-! ## Client Reconciliation Layer (src/client/src/data/api.rs) -/

/-- `pigweb_client::data::api::ApiError`. -/
structure ApiError where
  code : Option Nat
  reason : Option String
  description : String
deriving Repr, DecidableEq

/-- `pigweb_client::data::api::Status`: the status of a request. Named
`ReqStatus` here to avoid clashing with the HTTP status type. -/
inductive ReqStatus (T : Type) where
  | Received : T → ReqStatus T
  | Errored : ApiError → ReqStatus T
  | Pending : ReqStatus T

/-- The part of the client `ClientState` touched by the `endpoint!` handlers:
`authorized` (the signed-in role set, `None` meaning the session is invalid)
and the dismissible error list `pages.layout.display_error` (inlined here). -/
structure ClientState where
  authorized : Option (List Roles)
  display_error : List ApiError
deriving Repr, DecidableEq

/-- One `endpoint!`-generated handler: `receiver` is `none` when no request
is tracked, `some none` when the oneshot channel has not yet produced a
response (`try_recv` errors), and `some (some r)` when a response `r` is
available. -/
structure Handler (T : Type) where
  receiver : Option (Option (Except ApiError T))

/-- `check_response_status` (src/client/src/data/api.rs): a missing receiver
or a silent channel is `Pending`; a delivered response is `Received` or
`Errored`. -/
def check_response_status {T : Type} (h : Handler T) : ReqStatus T :=
  match h.receiver with
  | some (some (.ok t)) => .Received t
  | some (some (.error e)) => .Errored e
  | some none => .Pending
  | none => .Pending

/-- `resolve` of the `endpoint!` macro: read the status and drop the
receiver whenever the status is not `Pending`. Returns the status together
with the updated handler. -/
def Handler.resolve {T : Type} (h : Handler T) : ReqStatus T × Handler T :=
  let status := check_response_status h
  match status with
  | .Pending => (status, h)
  | _ => (status, { receiver := none })

/-- `received` of the `endpoint!` macro: a success is returned to the caller;
an error with code 401 clears `state.authorized` (the session-invalid
signal); any other error is pushed onto the dismissible error list. Returns
the optional payload, the updated handler, and the updated client state. -/
def Handler.received {T : Type} (h : Handler T) (state : ClientState) :
    Option T × Handler T × ClientState :=
  match h.resolve with
  | (.Received res, h2) => (some res, h2, state)
  | (.Errored err, h2) =>
    if err.code = some 401 then
      (none, h2, { state with authorized := none })
    else
      (none, h2, { state with display_error := state.display_error ++ [err] })
  | (.Pending, h2) => (none, h2, state)

/-! ## Specification-side characterizations of the patch actions -/

/-- Removing the first occurrence of `x`, written as the obvious recursion;
proved equal to the `position`-then-`remove` implementation below. -/
def removeFirst {T : Type} [DecidableEq T] (x : T) : List T → List T
  | [] => []
  | a :: rest => if a = x then rest else a :: removeFirst x rest

/-- Replacing the first occurrence of `o` by `n`, written as the obvious
recursion; proved equal to the `position`-then-overwrite implementation
below. -/
def updateFirst {T : Type} [DecidableEq T] (o n : T) : List T → List T
  | [] => []
  | a :: rest => if a = o then n :: rest else a :: updateFirst o n rest

/-! ## Concrete fixtures used by the scenario theorems -/

/-- A canonical entity named exactly "Bob". -/
def bobPig : Pig := { id := 0, name := "Bob", created := 0, creator := 0 }

/-- A canonical entity named "Bobby". -/
def bobbyPig : Pig := { id := 1, name := "Bobby", created := 0, creator := 0 }

/-- Scenario A environment: the detector answers with the entities of the
current store whose names match case-insensitively, and every insert would
succeed. -/
def envC1 : CreateEnv :=
  { detect := fun store name => .ok (store.filter (fun p => eq_ignore_ascii_case p.name name))
    createOk := fun _ _ => true
    startedAt := 3, finishedAt := 9, creator := 42, importId := 7 }

/-- Environment for the batch-dedup refutation: querying "Bob" always finds
the two matches "Bobby" and "Bob", the second being the exact one. -/
def envC4 : CreateEnv :=
  { detect := fun _ name => .ok (if name = "Bob" then [bobbyPig, bobPig] else [])
    createOk := fun _ _ => true
    startedAt := 3, finishedAt := 9, creator := 42, importId := 7 }

/-- Environment where every duplicate query fails, while every insert would
succeed. -/
def envC7 : CreateEnv :=
  { detect := fun _ _ => .error ()
    createOk := fun _ _ => true
    startedAt := 3, finishedAt := 9, creator := 42, importId := 7 }

/-- Environment where every duplicate query returns no match and every
insert succeeds. -/
def envC7w : CreateEnv :=
  { detect := fun _ _ => .ok []
    createOk := fun _ _ => true
    startedAt := 3, finishedAt := 9, creator := 42, importId := 7 }

/-- A finished import record (empty pending, `finished` set). -/
def impC2 : BulkImport :=
  { id := 1, name := "b", creator := 2, started := 0, finished := some 5,
    pending := [], accepted := [], rejected := ["b"] }

/-- A patch that re-adds a pending name to `impC2`. -/
def patchC2 : BulkPatch :=
  { id := 1, pending := some [PatchAction.ADD "x"], accepted := none, rejected := none }

/-- An unfinished record with one pending name. -/
def impC2w : BulkImport :=
  { id := 1, name := "x", creator := 2, started := 0, finished := none,
    pending := ["x"], accepted := [], rejected := [] }

/-- A patch that resolves the pending name of `impC2w` into an accepted id. -/
def patchC2w : BulkPatch :=
  { id := 1, pending := some [PatchAction.REMOVE "x"],
    accepted := some [PatchAction.ADD 33], rejected := none }

/-- A patch with no actions at all. -/
def patchC2keep : BulkPatch :=
  { id := 1, pending := none, accepted := none, rejected := none }

/-- A patch addressed to an id no record has. -/
def patchC5 : BulkPatch :=
  { id := 9, pending := none, accepted := none, rejected := none }

/-- A record created by operator 5, used by the fetch theorems. -/
def impC8 : BulkImport :=
  { id := 4, name := "a", creator := 5, started := 0, finished := none,
    pending := ["a"], accepted := [], rejected := [] }

/-- An unconstrained fetch query. -/
def queryC8 : BulkQuery := { id := none, creator := none, limit := none, offset := none }

/-- The server's role-check rejection as seen by the client: HTTP 403. -/
def err403 : ApiError :=
  { code := some HStatus.forbidden.code, reason := some "Forbidden",
    description := "role missing" }

/-- The not-authenticated signal as seen by the client: HTTP 401. -/
def err401 : ApiError :=
  { code := some HStatus.unauthorized.code, reason := some "Unauthorized",
    description := "session expired" }

/-- A handler whose request has come back as a 403 role-check rejection. -/
def handler403 : Handler Unit := { receiver := some (some (.error err403)) }

/-- A handler whose request has come back as a 401. -/
def handler401 : Handler Unit := { receiver := some (some (.error err401)) }

/-- A signed-in client with no errors on display. -/
def stateC9 : ClientState := { authorized := some [Roles.BulkEditor], display_error := [] }

/-! ## Helper lemmas -/

theorem performAction_remove {T : Type} [inst : DecidableEq T] (x : T) (l : List T) :
    performAction l (PatchAction.REMOVE x) = removeFirst x l := by
  induction l with
  | nil => rfl
  | cons a rest ih =>
    by_cases h : a = x
    · simp [performAction, removeFirst, h]
    · simp only [performAction, removeFirst, List.findIdx?_cons, h, decide_False,
        if_neg, if_false, List.findIdx?_succ] at ih ⊢
      cases hfi : rest.findIdx? (fun r => decide (r = x)) with
      | none => simpa [hfi] using ih
      | some i => simpa [hfi] using ih

theorem performAction_update {T : Type} [inst : DecidableEq T] (o n : T) (l : List T) :
    performAction l (PatchAction.UPDATE o n) = updateFirst o n l := by
  induction l with
  | nil => rfl
  | cons a rest ih =>
    by_cases h : a = o
    · simp [performAction, updateFirst, h]
    · simp only [performAction, updateFirst, List.findIdx?_cons, h, decide_False,
        if_neg, if_false, List.findIdx?_succ] at ih ⊢
      cases hfi : rest.findIdx? (fun r => decide (r = o)) with
      | none => simpa [hfi] using ih
      | some i => simpa [hfi] using ih

theorem removeFirst_of_not_mem {T : Type} [inst : DecidableEq T] {x : T} {l : List T}
    (h : x ∉ l) : removeFirst x l = l := by
  induction l with
  | nil => rfl
  | cons a rest ih =>
    have ha : a ≠ x := fun e => h (e ▸ List.mem_cons_self a rest)
    have hr : x ∉ rest := fun m => h (List.mem_cons_of_mem a m)
    simp [removeFirst, ha, ih hr]

theorem removeFirst_append_of_not_mem {T : Type} [inst : DecidableEq T] {x : T}
    {l1 : List T} (l2 : List T) (h : x ∉ l1) :
    removeFirst x (l1 ++ x :: l2) = l1 ++ l2 := by
  induction l1 with
  | nil => simp [removeFirst]
  | cons a rest ih =>
    have ha : a ≠ x := fun e => h (e ▸ List.mem_cons_self a rest)
    have hr : x ∉ rest := fun m => h (List.mem_cons_of_mem a m)
    simp [removeFirst, ha, ih hr]

theorem updateFirst_of_not_mem {T : Type} [inst : DecidableEq T] {o : T} (n : T)
    {l : List T} (h : o ∉ l) : updateFirst o n l = l := by
  induction l with
  | nil => rfl
  | cons a rest ih =>
    have ha : a ≠ o := fun e => h (e ▸ List.mem_cons_self a rest)
    have hr : o ∉ rest := fun m => h (List.mem_cons_of_mem a m)
    simp [updateFirst, ha, ih hr]

theorem updateFirst_append_of_not_mem {T : Type} [inst : DecidableEq T] {o : T} (n : T)
    {l1 : List T} (l2 : List T) (h : o ∉ l1) :
    updateFirst o n (l1 ++ o :: l2) = l1 ++ n :: l2 := by
  induction l1 with
  | nil => simp [updateFirst]
  | cons a rest ih =>
    have ha : a ≠ o := fun e => h (e ▸ List.mem_cons_self a rest)
    have hr : o ∉ rest := fun m => h (List.mem_cons_of_mem a m)
    simp [updateFirst, ha, ih hr]

theorem removeFirst_not_mem_of_count_le_one {T : Type} [inst : DecidableEq T]
    {x : T} {l : List T} (h : l.count x ≤ 1) : x ∉ removeFirst x l := by
  induction l with
  | nil => simp [removeFirst]
  | cons a rest ih =>
    by_cases ha : a = x
    · subst ha
      rw [List.count_cons_self] at h
      have : rest.count a = 0 := by omega
      have hnm : a ∉ rest := List.count_eq_zero.mp this
      simpa [removeFirst] using hnm
    · rw [removeFirst]
      rw [if_neg ha]
      have hcount : rest.count x ≤ 1 := by
        rw [List.count_cons_of_ne (fun e => ha e.symm)] at h
        exact h
      intro hmem
      rcases List.mem_cons.mp hmem with he | hm
      · exact ha he.symm
      · exact ih hcount hm

theorem removeFirst_idem_of_count_le_one {T : Type} [inst : DecidableEq T]
    {x : T} {l : List T} (h : l.count x ≤ 1) :
    removeFirst x (removeFirst x l) = removeFirst x l :=
  removeFirst_of_not_mem (removeFirst_not_mem_of_count_le_one h)

/-- `update_import` written as one simultaneous record update. -/
theorem update_import_eq (p : BulkPatch) (imp : BulkImport) :
    p.update_import imp =
      { imp with
        pending := perform_actions (p.pending.getD []) imp.pending
        accepted := perform_actions (p.accepted.getD []) imp.accepted
        rejected := perform_actions (p.rejected.getD []) imp.rejected } := by
  obtain ⟨i, pd, ac, rj⟩ := p
  cases pd <;> cases ac <;> cases rj <;> rfl

theorem update_import_finished (p : BulkPatch) (imp : BulkImport) :
    (p.update_import imp).finished = imp.finished := by
  rw [update_import_eq]

theorem set_import_name_pending (st : CreateState) (n : String) :
    (set_import_name st n).pending = st.pending := by
  unfold set_import_name
  split <;> rfl

/-- The pending accumulator after one loop iteration: either untouched, or
extended by the normalized name, which the guard certifies was not already
pending. -/
theorem createStep_pending (env : CreateEnv) (st : CreateState) (input : String) :
    (createStep env st input).pending = st.pending ∨
      ((createStep env st input).pending = st.pending ++ [cleanupName input] ∧
        cleanupName input ∉ st.pending) := by
  simp only [createStep]
  by_cases hmem : cleanupName input ∈ (set_import_name st (cleanupName input)).pending
  · rw [if_pos hmem]
    exact Or.inl (set_import_name_pending st _)
  · rw [if_neg hmem]
    rw [set_import_name_pending] at hmem
    cases hdet : env.detect (set_import_name st (cleanupName input)).store (cleanupName input) with
    | ok dups =>
      dsimp only
      by_cases hlen : dups.length > 0
      · rw [if_pos hlen]
        split
        · exact Or.inl (set_import_name_pending st _)
        · exact Or.inr ⟨by rw [set_import_name_pending], hmem⟩
      · rw [if_neg hlen]
        split
        · exact Or.inl (set_import_name_pending st _)
        · exact Or.inr ⟨by rw [set_import_name_pending], hmem⟩
    | error e =>
      exact Or.inr ⟨by rw [set_import_name_pending], hmem⟩

theorem nodup_append_singleton {T : Type} {l : List T} {a : T}
    (hn : l.Nodup) (ha : a ∉ l) : (l ++ [a]).Nodup := by
  induction l with
  | nil => simp
  | cons b rest ih =>
    rcases List.nodup_cons.mp hn with ⟨hb, hrest⟩
    have ha2 : a ∉ rest := fun m => ha (List.mem_cons_of_mem b m)
    have hb2 : b ∉ rest ++ [a] := by
      intro m
      rcases List.mem_append.mp m with m1 | m2
      · exact hb m1
      · have hba : b = a := List.mem_singleton.mp m2
        subst hba
        exact ha (List.mem_cons_self b rest)
    exact List.nodup_cons.mpr ⟨hb2, ih hrest ha2⟩

theorem createStep_pending_nodup (env : CreateEnv) (st : CreateState) (input : String)
    (h : st.pending.Nodup) : (createStep env st input).pending.Nodup := by
  rcases createStep_pending env st input with heq | ⟨heq, hmem⟩
  · rw [heq]; exact h
  · rw [heq]; exact nodup_append_singleton h hmem

theorem processBatch_pending_nodup (env : CreateEnv) (inputs : List String) :
    ∀ st : CreateState, st.pending.Nodup → (processBatch env inputs st).pending.Nodup := by
  induction inputs with
  | nil => intro st h; exact h
  | cons a rest ih =>
    intro st h
    exact ih (createStep env st a) (createStep_pending_nodup env st a h)

/-! ## Claim theorems -/

/-- C3 counterexample: on a bucket holding the value twice, applying
`REMOVE("a")` twice removes both occurrences while applying it once leaves
one, so the two results differ. -/
theorem C3_counterexample :
    perform_actions [PatchAction.REMOVE "a"]
        (perform_actions [PatchAction.REMOVE "a"] ["a", "a"]) ≠
      perform_actions [PatchAction.REMOVE "a"] ["a", "a"] := by decide

/-- C3: applying the patch action `REMOVE(x)` twice yields the same bucket
contents as applying it once, provided the bucket holds `x` at most once
(each application removes one occurrence, so the idempotence claimed for
arbitrary multiplicities fails — see the counterexample). -/
theorem C3_remove_idempotent (T : Type) [inst : DecidableEq T] (l : List T) (x : T)
    (h : l.count x ≤ 1) :
    perform_actions [PatchAction.REMOVE x] (perform_actions [PatchAction.REMOVE x] l) =
      perform_actions [PatchAction.REMOVE x] l := by
  simp only [perform_actions, List.foldl_cons, List.foldl_nil, performAction_remove]
  exact removeFirst_idem_of_count_le_one h

/-- C3 witness: the idempotence theorem applied to the concrete bucket
`["a", "b"]`, which holds `"a"` once. -/
theorem C3_remove_idempotent_witness :
    perform_actions [PatchAction.REMOVE "a"]
        (perform_actions [PatchAction.REMOVE "a"] ["a", "b"]) =
      perform_actions [PatchAction.REMOVE "a"] ["a", "b"] :=
  C3_remove_idempotent String ["a", "b"] "a" (by decide)

/-- C6: a patch applies the three action lists each to its own bucket (so
their fixed pending-accepted-rejected sequencing is exactly the simultaneous
record update below), actions within one list run in array order via the
fold step, `ADD` appends, `REMOVE` drops the first occurrence and is a no-op
when the value is absent, and `UPDATE` overwrites the first occurrence of
`old` and is a no-op when `old` is absent. -/
theorem C6_patch_action_semantics :
    (∀ (p : BulkPatch) (imp : BulkImport),
      p.update_import imp =
        { imp with
          pending := perform_actions (p.pending.getD []) imp.pending
          accepted := perform_actions (p.accepted.getD []) imp.accepted
          rejected := perform_actions (p.rejected.getD []) imp.rejected }) ∧
    (∀ (T : Type) [inst : DecidableEq T] (a : PatchAction T) (acts : List (PatchAction T))
        (l : List T),
      perform_actions (a :: acts) l = perform_actions acts (performAction l a)) ∧
    (∀ (T : Type) [inst : DecidableEq T] (l : List T) (v : T),
      performAction l (PatchAction.ADD v) = l ++ [v]) ∧
    (∀ (T : Type) [inst : DecidableEq T] (l : List T) (v : T),
      v ∉ l → performAction l (PatchAction.REMOVE v) = l) ∧
    (∀ (T : Type) [inst : DecidableEq T] (l1 l2 : List T) (v : T),
      v ∉ l1 → performAction (l1 ++ v :: l2) (PatchAction.REMOVE v) = l1 ++ l2) ∧
    (∀ (T : Type) [inst : DecidableEq T] (l : List T) (o n : T),
      o ∉ l → performAction l (PatchAction.UPDATE o n) = l) ∧
    (∀ (T : Type) [inst : DecidableEq T] (l1 l2 : List T) (o n : T),
      o ∉ l1 → performAction (l1 ++ o :: l2) (PatchAction.UPDATE o n) = l1 ++ n :: l2) := by
  refine ⟨update_import_eq, fun T _ a acts l => rfl, fun T _ l v => rfl, ?_, ?_, ?_, ?_⟩
  · intro T _ l v hv
    rw [performAction_remove]
    exact removeFirst_of_not_mem hv
  · intro T _ l1 l2 v hv
    rw [performAction_remove]
    exact removeFirst_append_of_not_mem l2 hv
  · intro T _ l o n ho
    rw [performAction_update]
    exact updateFirst_of_not_mem n ho
  · intro T _ l1 l2 o n ho
    rw [performAction_update]
    exact updateFirst_append_of_not_mem n l2 ho

/-- C6 witness: the action semantics applied at concrete buckets. -/
theorem C6_patch_action_semantics_witness :
    performAction ["a"] (PatchAction.REMOVE "b") = ["a"] ∧
    performAction (["x"] ++ "y" :: ["z"]) (PatchAction.REMOVE "y") = ["x"] ++ ["z"] ∧
    performAction ["a"] (PatchAction.UPDATE "b" "c") = ["a"] ∧
    performAction (["x"] ++ "y" :: ["z"]) (PatchAction.UPDATE "y" "w") = ["x"] ++ "w" :: ["z"] :=
  ⟨C6_patch_action_semantics.2.2.2.1 String ["a"] "b" (by decide),
   C6_patch_action_semantics.2.2.2.2.1 String ["x"] ["z"] "y" (by decide),
   C6_patch_action_semantics.2.2.2.2.2.1 String ["a"] "b" "c" (by decide),
   C6_patch_action_semantics.2.2.2.2.2.2 String ["x"] ["z"] "y" "w" (by decide)⟩

/-- C10: applying a patch body via `update_import` touches only the three
bucket fields; `id`, `name`, `creator`, `started`, and `finished` come out
unchanged for every patch and every record. -/
theorem C10_update_import_frame (p : BulkPatch) (imp : BulkImport) :
    (p.update_import imp).id = imp.id ∧
    (p.update_import imp).name = imp.name ∧
    (p.update_import imp).creator = imp.creator ∧
    (p.update_import imp).started = imp.started ∧
    (p.update_import imp).finished = imp.finished := by
  rw [update_import_eq]
  exact ⟨rfl, rfl, rfl, rfl, rfl⟩

/-- C2 counterexample: patching the finished record `impC2` (empty pending,
`finished = some 5`) with an `ADD` to pending succeeds and leaves a stored
record whose pending is non-empty while `finished` is still non-null, so the
claimed iff fails after this patch. -/
theorem C2_counterexample :
    (api_bulk_patch true 7 true [impC2] patchC2).1 = HStatus.ok ∧
    ((api_bulk_patch true 7 true [impC2] patchC2).2.map
        (fun r => (r.pending, r.finished))) = [(["x"], some 5)] := by decide

/-- C2: the finished invariant as the code upholds it. Immediately after
creation, `finished` is non-null iff `pending` is empty. Immediately after a
patch application, an empty pending forces `finished` to the current time,
but a non-empty pending leaves `finished` at its pre-patch value — so after
a patch the iff can fail exactly when a patch re-fills the pending bucket of
an already finished record. -/
theorem C2_finished_invariant :
    (∀ (env : CreateEnv) (inputs : List String) (store : List Pig) (nextId : Uuid),
      ((api_bulk_create env inputs store nextId).1.finished).isSome ↔
        (api_bulk_create env inputs store nextId).1.pending = []) ∧
    (∀ (now : Time) (actions : BulkPatch) (imp : BulkImport),
      ((patchedImport now actions imp).pending = [] →
        (patchedImport now actions imp).finished = some now) ∧
      ((patchedImport now actions imp).pending ≠ [] →
        (patchedImport now actions imp).finished = imp.finished)) := by
  constructor
  · intro env inputs store nextId
    simp only [api_bulk_create]
    by_cases h : (processBatch env inputs (initialState store nextId)).pending.length = 0
    · simp [h, List.length_eq_zero.mp h]
    · simp only [h, if_false, Option.isSome_none, Bool.false_eq_true, false_iff]
      intro he
      exact h (List.length_eq_zero.mpr he)
  · intro now actions imp
    constructor
    · intro hp
      simp only [patchedImport] at hp ⊢
      by_cases h : ((actions.update_import imp).pending).length = 0
      · rw [if_pos h]
      · rw [if_neg h] at hp
        exact absurd (List.length_eq_zero.mpr hp) h
    · intro hp
      simp only [patchedImport] at hp ⊢
      by_cases h : ((actions.update_import imp).pending).length = 0
      · rw [if_pos h] at hp
        exact absurd (List.length_eq_zero.mp h) hp
      · rw [if_neg h]
        exact update_import_finished actions imp

/-- C2 witness: the patch-side statements applied to concrete records: the
patch `patchC2w` empties the pending bucket of `impC2w` and stamps
`finished`, while the empty patch leaves pending non-empty and `finished`
unchanged. -/
theorem C2_finished_invariant_witness :
    (patchedImport 7 patchC2w impC2w).finished = some 7 ∧
    (patchedImport 7 patchC2keep impC2w).finished = impC2w.finished :=
  ⟨(C2_finished_invariant.2 7 patchC2w impC2w).1 (by decide),
   (C2_finished_invariant.2 7 patchC2keep impC2w).2 (by decide)⟩

/-- C5 counterexample: a patch addressed to the unknown id 9 on an empty
store returns the internal-server-error status, not a not-found status. -/
theorem C5_counterexample :
    api_bulk_patch true 0 true [] patchC5 = (HStatus.internalServerError, []) ∧
    HStatus.internalServerError ≠ HStatus.notFound := by decide

/-- C5: a patch addressed to an id for which no record exists leaves the
Import Record Store completely unchanged, but the error it reports is the
internal-server-error status (the code funnels a zero-match lookup into the
same 500 as a genuine load failure), not a not-found error. -/
theorem C5_patch_missing_id (now : Time) (saveOk : Bool) (table : List BulkImport)
    (actions : BulkPatch) (h : ∀ imp ∈ table, imp.id ≠ actions.id) :
    api_bulk_patch true now saveOk table actions = (.internalServerError, table) := by
  have hfil : table.filter (fun (imp : BulkImport) => decide (imp.id = actions.id)) = [] := by
    rw [List.filter_eq_nil_iff]
    intro a ha
    simp only [decide_eq_true_eq]
    exact h a ha
  simp [api_bulk_patch, BulkQuery.to_db_select, hfil]

/-- C5 witness: the missing-id theorem applied to the one-record store
`[impC8]` (its record has id 4) and the patch addressed to id 9. -/
theorem C5_patch_missing_id_witness :
    api_bulk_patch true 2 true [impC8] patchC5 = (HStatus.internalServerError, [impC8]) :=
  C5_patch_missing_id 2 true [impC8] patchC5 (by decide)

/-- C1: code-bug demonstration of Scenario A. The store holds exactly one
entity named exactly "Bob"; the detector returns exactly that one match and
it is a case-insensitive exact string match, yet the pipeline leaves "Bob"
in `pending` with `finished` null instead of rejecting it, because line 78
of bulkapi.rs consults `duplicates.get(1)` — the second search result —
while its own comment says the first result is to be checked. -/
theorem C1_scenarioA_code_behavior :
    envC1.detect [bobPig] "Bob" = .ok [bobPig] ∧
    eq_ignore_ascii_case bobPig.name "Bob" = true ∧
    (api_bulk_create envC1 ["Bob"] [bobPig] 100).1.pending = ["Bob"] ∧
    (api_bulk_create envC1 ["Bob"] [bobPig] 100).1.accepted = [] ∧
    (api_bulk_create envC1 ["Bob"] [bobPig] 100).1.rejected = [] ∧
    (api_bulk_create envC1 ["Bob"] [bobPig] 100).1.finished = none := by decide

/-- C4 counterexample: submitting `["Bob", "Bob"]` when the detector finds
the exact duplicate in second position rejects the name twice — the
within-batch skip rule consults only the pending accumulator, so a repeated
name whose first occurrence was rejected yields two entries. -/
theorem C4_counterexample :
    envC4.detect [bobbyPig, bobPig] "Bob" = .ok [bobbyPig, bobPig] ∧
    (api_bulk_create envC4 ["Bob", "Bob"] [bobbyPig, bobPig] 50).1.rejected =
      ["Bob", "Bob"] := by decide

/-- C4: the batch-internal dedup the code actually guarantees: the skip rule
checks only the pending accumulator, hence the resulting pending bucket
never holds two equal entries, for every batch, every Record Store behaviour
and every starting store; a repeated name resolved into accepted or rejected
may produce further entries (see the counterexample). -/
theorem C4_pending_nodup (env : CreateEnv) (inputs : List String) (store : List Pig)
    (nextId : Uuid) : ((api_bulk_create env inputs store nextId).1.pending).Nodup := by
  have h := processBatch_pending_nodup env inputs (initialState store nextId)
    (by simp [initialState])
  simpa [api_bulk_create] using h

/-- C7 counterexample: when the duplicate query errors, the code appends the
name to `pending` without attempting any creation, even though every insert
would succeed — no identifier is accepted and the Record Store stays empty,
contradicting the claim that a detector error triggers an immediate creation
attempt. -/
theorem C7_counterexample :
    envC7.detect [] "Alice" = .error () ∧
    envC7.createOk [] (Pig.new "Alice" envC7.creator 10 envC7.startedAt) = true ∧
    (api_bulk_create envC7 ["Alice"] [] 10).1.accepted = [] ∧
    (api_bulk_create envC7 ["Alice"] [] 10).1.pending = ["Alice"] ∧
    (api_bulk_create envC7 ["Alice"] [] 10).2 = [] := by decide

/-- C7: the classification fallback the code implements, for a normalized
name not already pending. A zero-match detector answer triggers an immediate
creation attempt: on success the new identifier is appended to `accepted`
(and the entity to the store), on failure the name is appended to `pending`.
A detector error skips the creation attempt and appends the name straight to
`pending`. In every case the loop simply continues with the remaining names:
the batch is never aborted. -/
theorem C7_classification_fallback (env : CreateEnv) (st : CreateState) (input : String)
    (hmem : cleanupName input ∉ st.pending) :
    (env.detect (set_import_name st (cleanupName input)).store (cleanupName input) = .ok [] →
      (env.createOk (set_import_name st (cleanupName input)).store
          (Pig.new (cleanupName input) env.creator
            (set_import_name st (cleanupName input)).nextId env.startedAt) = true →
        createStep env st input =
          { set_import_name st (cleanupName input) with
            store := (set_import_name st (cleanupName input)).store ++
              [Pig.new (cleanupName input) env.creator
                (set_import_name st (cleanupName input)).nextId env.startedAt]
            nextId := (set_import_name st (cleanupName input)).nextId + 1
            accepted := (set_import_name st (cleanupName input)).accepted ++
              [(Pig.new (cleanupName input) env.creator
                (set_import_name st (cleanupName input)).nextId env.startedAt).id] }) ∧
      (env.createOk (set_import_name st (cleanupName input)).store
          (Pig.new (cleanupName input) env.creator
            (set_import_name st (cleanupName input)).nextId env.startedAt) = false →
        createStep env st input =
          { set_import_name st (cleanupName input) with
            nextId := (set_import_name st (cleanupName input)).nextId + 1
            pending := (set_import_name st (cleanupName input)).pending ++
              [cleanupName input] })) ∧
    (env.detect (set_import_name st (cleanupName input)).store (cleanupName input) =
        .error () →
      createStep env st input =
        { set_import_name st (cleanupName input) with
          pending := (set_import_name st (cleanupName input)).pending ++
            [cleanupName input] }) ∧
    (∀ rest, processBatch env (input :: rest) st =
      processBatch env rest (createStep env st input)) := by
  have hguard : ¬ cleanupName input ∈ (set_import_name st (cleanupName input)).pending := by
    rw [set_import_name_pending]
    exact hmem
  refine ⟨?_, ?_, fun rest => rfl⟩
  · intro hdet
    constructor
    · intro hok
      simp only [createStep]
      rw [if_neg hguard, hdet]
      dsimp only
      rw [if_neg (by simp), if_pos hok]
    · intro hko
      simp only [createStep]
      rw [if_neg hguard, hdet]
      dsimp only
      rw [if_neg (by simp), if_neg (by simp [hko])]
  · intro hdet
    simp only [createStep]
    rw [if_neg hguard, hdet]

/-- C7 witness: the fallback theorem applied at the empty starting state
with the match-free detector of `envC7w`, plus one continuation step. -/
theorem C7_classification_fallback_witness :
    createStep envC7w (initialState [] 0) "Al" =
      { set_import_name (initialState [] 0) (cleanupName "Al") with
        store := (set_import_name (initialState [] 0) (cleanupName "Al")).store ++
          [Pig.new (cleanupName "Al") envC7w.creator
            (set_import_name (initialState [] 0) (cleanupName "Al")).nextId envC7w.startedAt]
        nextId := (set_import_name (initialState [] 0) (cleanupName "Al")).nextId + 1
        accepted := (set_import_name (initialState [] 0) (cleanupName "Al")).accepted ++
          [(Pig.new (cleanupName "Al") envC7w.creator
            (set_import_name (initialState [] 0) (cleanupName "Al")).nextId
              envC7w.startedAt).id] } ∧
    processBatch envC7w ["Al", "Bo"] (initialState [] 0) =
      processBatch envC7w ["Bo"] (createStep envC7w (initialState [] 0) "Al") :=
  ⟨((C7_classification_fallback envC7w (initialState [] 0) "Al" (by decide)).1 rfl).1 rfl,
   (C7_classification_fallback envC7w (initialState [] 0) "Al" (by decide)).2.2 ["Bo"]⟩

theorem mem_of_mem_take_drop_ite {T : Type} {r : T} {l : List T} {c : Prop}
    [inst : Decidable c] {o n : Nat} (h : r ∈ (if c then l.drop o else l).take n) : r ∈ l := by
  have h2 := List.mem_of_mem_take h
  split at h2
  · exact List.mem_of_mem_drop h2
  · exact h2

/-- Every record produced by `to_db_select` satisfies the creator filter
when one is set. -/
theorem to_db_select_creator (q : BulkQuery) (cs : List Uuid) (table : List BulkImport)
    (hq : q.creator = some cs) :
    ∀ r ∈ q.to_db_select table, r.creator ∈ cs := by
  intro r hr
  simp only [BulkQuery.to_db_select, hq] at hr
  have h2 := mem_of_mem_take_drop_ite hr
  have h3 := List.mem_filter.mp h2
  exact of_decide_eq_true h3.2

/-- C8: for a caller without the BulkAdmin role (with or without the
BulkEditor role), every record a fetch returns was created by the caller,
and the response is identical for any two values of the request's creator
filter — the filter is overwritten with the caller's own id before the
select runs. -/
theorem C8_fetch_nonadmin_scoped (isBulkEditor : Bool) (selfId : Uuid) (loadOk : Bool)
    (table : List BulkImport) (q : BulkQuery) :
    (∀ l, api_bulk_fetch false isBulkEditor selfId loadOk table q = .ok l →
      ∀ r ∈ l, r.creator = selfId) ∧
    (∀ c1 c2 : Option (List Uuid),
      api_bulk_fetch false isBulkEditor selfId loadOk table { q with creator := c1 } =
        api_bulk_fetch false isBulkEditor selfId loadOk table { q with creator := c2 }) := by
  constructor
  · intro l hl r hr
    cases isBulkEditor with
    | false => simp [api_bulk_fetch] at hl
    | true =>
      cases loadOk with
      | false => simp [api_bulk_fetch] at hl
      | true =>
        simp only [api_bulk_fetch, Bool.or_true, Bool.not_true, Bool.false_eq_true,
          if_false, Bool.not_false, if_true, Except.ok.injEq] at hl
        rw [← hl] at hr
        have hc := to_db_select_creator { q with creator := some [selfId] } [selfId]
          table rfl r hr
        simpa using hc
  · intro c1 c2
    cases isBulkEditor <;> rfl

/-- C8 witness: the scoping theorem applied to the one-record store
`[impC8]` and two different requested creator filters. -/
theorem C8_fetch_nonadmin_scoped_witness :
    impC8.creator = 5 ∧
    api_bulk_fetch false true 5 true [impC8] { queryC8 with creator := some [77] } =
      api_bulk_fetch false true 5 true [impC8] { queryC8 with creator := some [5] } :=
  ⟨(C8_fetch_nonadmin_scoped true 5 true [impC8] queryC8).1 [impC8] (by decide) impC8
      (by decide),
   (C8_fetch_nonadmin_scoped true 5 true [impC8] queryC8).2 (some [77]) (some [5])⟩

/-- C9 counterexample: a response carrying the server's role-check rejection
(HTTP 403, the forbidden signal the bulk endpoints return for a missing
role) is appended to the dismissible error list and leaves the authorized
state untouched — it does not trigger the session-invalid signal. -/
theorem C9_counterexample :
    err403.code = some HStatus.forbidden.code ∧
    (Handler.received handler403 stateC9).2.2.authorized = some [Roles.BulkEditor] ∧
    (Handler.received handler403 stateC9).2.2.display_error = [err403] := by decide

/-- C9: the failure `received` treats specially is the not-authenticated
code 401: it clears the authorized state (the session-invalid signal) and
adds nothing to the dismissible list. Every other failure — including the
403 role-check rejection — is appended to the dismissible error list with
the authorized state untouched. In both cases the operation handle is
cleared. -/
theorem C9_session_invalid_signal (T : Type) (h : Handler T) (st : ClientState)
    (err : ApiError) (hrec : h.receiver = some (some (.error err))) :
    (err.code = some 401 →
      h.received st = (none, { receiver := none }, { st with authorized := none })) ∧
    (err.code ≠ some 401 →
      h.received st =
        (none, { receiver := none },
          { st with display_error := st.display_error ++ [err] })) ∧
    (err.code = some HStatus.forbidden.code →
      h.received st =
        (none, { receiver := none },
          { st with display_error := st.display_error ++ [err] })) := by
  obtain ⟨rec⟩ := h
  subst hrec
  refine ⟨?_, ?_, ?_⟩
  · intro h401
    simp [Handler.received, Handler.resolve, check_response_status, h401]
  · intro hother
    simp [Handler.received, Handler.resolve, check_response_status, hother]
  · intro h403
    have hne : err.code ≠ some 401 := by
      rw [h403]
      simp [HStatus.code]
    simp [Handler.received, Handler.resolve, check_response_status, hne]

/-- C9 witness: the signal theorem applied to a concrete 401 response and a
concrete 403 response. -/
theorem C9_session_invalid_signal_witness :
    Handler.received handler401 stateC9 =
      (none, { receiver := none }, { stateC9 with authorized := none }) ∧
    Handler.received handler403 stateC9 =
      (none, { receiver := none },
        { stateC9 with display_error := stateC9.display_error ++ [err403] }) :=
  ⟨(C9_session_invalid_signal Unit handler401 stateC9 err401 rfl).1 rfl,
   (C9_session_invalid_signal Unit handler403 stateC9 err403 rfl).2.2 rfl⟩

end PigWeb

